import Mathlib

/-!
Verification development for the ERPNext MCP server (src/index.ts).

The server is a stateless adapter: an `ERPNextClient` holding connection
configuration, six backend operations issuing HTTP requests, and request
handlers (read-resource, call-tool) dispatching on URIs and tool names.
We embed the JavaScript value model (JSON values plus `undefined`), the
client operations as functions of an abstract HTTP backend that also
return the list of HTTP requests they emit, and the two request handlers.
-/

/-- A JavaScript runtime value as it appears in this program: the JSON
values plus `undefined`.  Numbers are modelled as integers;
the program performs no fractional arithmetic. -/
inductive Json where
  | undefined
  | null
  | bool (b : Bool)
  | num (n : Int)
  | str (s : String)
  | arr (elems : List Json)
  | obj (fields : List (String × Json))
deriving Repr

/-- A JavaScript object / JSON object body: an association list of fields
(keys are unique at runtime in JavaScript). -/
abbrev JObj := List (String × Json)

mutual
/-- Decidable equality on embedded values (element-wise). -/
def Json.beq : Json → Json → Bool
  | .undefined, .undefined => true
  | .null, .null => true
  | .bool a, .bool b => a == b
  | .num a, .num b => a == b
  | .str a, .str b => a == b
  | .arr a, .arr b => Json.beqList a b
  | .obj a, .obj b => Json.beqObj a b
  | _, _ => false

def Json.beqList : List Json → List Json → Bool
  | [], [] => true
  | a :: as', b :: bs' => Json.beq a b && Json.beqList as' bs'
  | _, _ => false

def Json.beqObj : List (String × Json) → List (String × Json) → Bool
  | [], [] => true
  | (k, v) :: as', (k', v') :: bs' => k == k' && Json.beq v v' && Json.beqObj as' bs'
  | _, _ => false
end

mutual
theorem Json.beq_iff : ∀ a b : Json, Json.beq a b = true ↔ a = b
  | .undefined, b => by cases b <;> simp [Json.beq]
  | .null, b => by cases b <;> simp [Json.beq]
  | .bool a, b => by cases b <;> simp [Json.beq]
  | .num a, b => by cases b <;> simp [Json.beq]
  | .str a, b => by cases b <;> simp [Json.beq]
  | .arr a, b => by
      cases b <;> simp [Json.beq]
      exact Json.beqList_iff a _
  | .obj a, b => by
      cases b <;> simp [Json.beq]
      exact Json.beqObj_iff a _

theorem Json.beqList_iff : ∀ a b : List Json, Json.beqList a b = true ↔ a = b
  | [], b => by cases b <;> simp [Json.beqList]
  | x :: xs, b => by
      cases b with
      | nil => simp [Json.beqList]
      | cons y ys =>
        simp [Json.beqList, Json.beq_iff x y, Json.beqList_iff xs ys]

theorem Json.beqObj_iff : ∀ a b : List (String × Json), Json.beqObj a b = true ↔ a = b
  | [], b => by cases b <;> simp [Json.beqObj]
  | (k, v) :: xs, b => by
      cases b with
      | nil => simp [Json.beqObj]
      | cons y ys =>
        cases y with
        | mk k' v' =>
          simp [Json.beqObj, Json.beq_iff v v', Json.beqObj_iff xs ys, and_assoc]
end

instance : DecidableEq Json := fun a b =>
  decidable_of_iff (Json.beq a b = true) (Json.beq_iff a b)

/-- JavaScript truthiness of a value: `undefined`, `null`, `false`, `0`,
and the empty string are falsy; arrays and objects are always truthy. -/
def jsTruthy : Json → Bool
  | .undefined => false
  | .null => false
  | .bool b => b
  | .num n => n != 0
  | .str s => s != ""
  | .arr _ => true
  | .obj _ => true

/-- Property access `v[k]` where it does not throw: objects look the key up
(`undefined` when missing), arrays support numeric-string indices, strings
index into their characters; other primitives yield `undefined`.
Access on `null`/`undefined` throws and is modelled separately. -/
def jsGet : Json → String → Json
  | .obj fs, k => (fs.lookup k).getD .undefined
  | .arr xs, k => (k.toNat?.bind xs.get?).getD .undefined
  | .str s, k =>
      match k.toNat?.bind s.data.get? with
      | some c => .str ⟨[c]⟩
      | none => .undefined
  | _, _ => .undefined

/-- Property access that models the JavaScript `TypeError` thrown when the
receiver is `null` or `undefined` (e.g. `response.data.data` with a null
body). -/
def jsGetE (v : Json) (k : String) : Except String Json :=
  match v with
  | .undefined => .error ("Cannot read properties of undefined (reading " ++ k ++ ")")
  | .null => .error ("Cannot read properties of null (reading " ++ k ++ ")")
  | v => .ok (jsGet v k)

mutual
/-- JavaScript `String(v)` / `v.toString()` on the values of this program:
arrays join their elements with commas (null/undefined elements become
empty), objects print as `[object Object]`. -/
def jsString : Json → String
  | .undefined => "undefined"
  | .null => "null"
  | .bool true => "true"
  | .bool false => "false"
  | .num n => toString n
  | .str s => s
  | .arr xs => jsStringJoin xs
  | .obj _ => "[object Object]"

def jsStringElem : Json → String
  | .undefined => ""
  | .null => ""
  | v => jsString v

def jsStringJoin : List Json → String
  | [] => ""
  | [x] => jsStringElem x
  | x :: xs => jsStringElem x ++ "," ++ jsStringJoin xs
end

/-- Escape one character for a JSON string literal. -/
def jsonEscapeChar (c : Char) : String :=
  if c = '"' then "\\\""
  else if c = '\\' then "\\\\"
  else if c = '\n' then "\\n"
  else if c = '\r' then "\\r"
  else if c = '\t' then "\\t"
  else if c = '\x08' then "\\b"
  else if c = '\x0c' then "\\f"
  else if c.toNat < 0x20 then
    "\\u" ++ (Nat.toDigits 16 c.toNat).asString.leftpad 4 '0'
  else ⟨[c]⟩

/-- A JSON string literal with quotes and escapes. -/
def jsonQuote (s : String) : String :=
  "\"" ++ String.join (s.data.map jsonEscapeChar) ++ "\""

mutual
/-- Model of `JSON.stringify` (compact form): `none` models the `undefined` result
for an `undefined` input; object members with `undefined` values are
skipped; `undefined` array elements serialize as `null`. -/
def jsonStringifyVal : Json → Option String
  | .undefined => none
  | .null => some "null"
  | .bool true => some "true"
  | .bool false => some "false"
  | .num n => some (toString n)
  | .str s => some (jsonQuote s)
  | .arr xs => some ("[" ++ String.intercalate "," (jsonArrParts xs) ++ "]")
  | .obj fs => some ("\x7b" ++ String.intercalate "," (jsonObjParts fs) ++ "\x7d")

def jsonArrParts : List Json → List String
  | [] => []
  | x :: xs => (jsonStringifyVal x).getD "null" :: jsonArrParts xs

def jsonObjParts : List (String × Json) → List String
  | [] => []
  | (k, v) :: rest =>
      match jsonStringifyVal v with
      | none => jsonObjParts rest
      | some s => (jsonQuote k ++ ":" ++ s) :: jsonObjParts rest
end

/-- Wrapper for `JSON.stringify` where the argument is known to be a defined value
(as in every call site of this program). -/
def jsonStringify (v : Json) : String := (jsonStringifyVal v).getD ""

/-- An HTTP request as issued through the axios instance: method, the
request path, query parameters (axios drops `undefined` values, which the
builders below therefore never insert), and an optional JSON body. -/
structure HttpRequest where
  method : String
  url : String
  params : List (String × Json)
  body : Option Json
deriving DecidableEq, Repr

/-- The backend HTTP layer, abstracted: a request either resolves with a
parsed JSON response body or rejects with an error message. -/
def Backend := HttpRequest → Except String Json

/-- The environment variables the program reads (`none` = unset; note an
environment variable may be set to the empty string, which is falsy). -/
structure Env where
  url : Option String
  apiKey : Option String
  apiSecret : Option String

/-- Connection state of the ERPNext API client: the stored base URL, the
`Authorization` header (present iff credentials were configured), and the
`authenticated` flag assigned once in the constructor. -/
structure ERPNextClient where
  baseUrl : String
  authHeader : Option String
  authenticated : Bool
deriving DecidableEq, Repr

/-- Strip of a trailing slash, on the character list:
the regex replace `/\/$/ -> ''` of the constructor. -/
def stripSlashL (l : List Char) : List Char :=
  if l.getLast? = some '/' then l.dropLast else l

/-- The constructor's `this.baseUrl.replace(/\/$/, '')`: removes one
trailing slash when present. -/
def stripTrailingSlash (s : String) : String := ⟨stripSlashL s.data⟩

/-- The `ERPNextClient` constructor: requires a non-empty `ERPNEXT_URL`
(else it throws), strips one trailing slash, and sets `authenticated`
(with the `Authorization: token key:secret` header) iff both
`ERPNEXT_API_KEY` and `ERPNEXT_API_SECRET` are set and truthy. -/
def clientInit (env : Env) : Except String ERPNextClient :=
  let baseUrl0 := env.url.getD ""
  if baseUrl0 = "" then
    .error "ERPNEXT_URL environment variable is required"
  else
    let b := stripTrailingSlash baseUrl0
    match env.apiKey, env.apiSecret with
    | some k, some s =>
        if k ≠ "" ∧ s ≠ "" then
          .ok ⟨b, some ("token " ++ k ++ ":" ++ s), true⟩
        else .ok ⟨b, none, false⟩
    | _, _ => .ok ⟨b, none, false⟩

/-- The `isAuthenticated()` query: returns the flag stored at
construction. -/
def ERPNextClient.isAuthenticated (c : ERPNextClient) : Bool :=
  c.authenticated

/-- The error message fallback `error?.message || 'Unknown error'`. -/
def msgOr (m : String) : String := if m = "" then "Unknown error" else m

/-- Request of `getDocument`: `GET /api/resource/{doctype}/{name}`. -/
def getDocumentRequest (doctype name : String) : HttpRequest :=
  ⟨"GET", "/api/resource/" ++ doctype ++ "/" ++ name, [], none⟩

/-- Request of `getDocList`: `GET /api/resource/{doctype}` with `fields`
included only when given and non-empty, `filters` only when given, and
`limit_page_length` only when the limit is truthy (so a limit of `0` is
dropped). -/
def getDocListRequest (doctype : String) (filters : Option JObj)
    (fields : Option (List String)) (limit : Option Int) : HttpRequest :=
  let p1 : List (String × Json) :=
    match fields with
    | some fs =>
        if fs ≠ [] then
          [("fields", .str (jsonStringify (.arr (fs.map Json.str))))]
        else []
    | none => []
  let p2 : List (String × Json) :=
    match filters with
    | some f => [("filters", .str (jsonStringify (.obj f)))]
    | none => []
  let p3 : List (String × Json) :=
    match limit with
    | some n => if n ≠ 0 then [("limit_page_length", .num n)] else []
    | none => []
  ⟨"GET", "/api/resource/" ++ doctype, p1 ++ p2 ++ p3, none⟩

/-- Request of `createDocument`: `POST /api/resource/{doctype}` with body
`{data: doc}`. -/
def createDocumentRequest (doctype : String) (doc : JObj) : HttpRequest :=
  ⟨"POST", "/api/resource/" ++ doctype, [], some (.obj [("data", .obj doc)])⟩

/-- Request of `updateDocument`: `PUT /api/resource/{doctype}/{name}` with
body `{data: doc}`. -/
def updateDocumentRequest (doctype name : String) (doc : JObj) : HttpRequest :=
  ⟨"PUT", "/api/resource/" ++ doctype ++ "/" ++ name, [],
    some (.obj [("data", .obj doc)])⟩

/-- Request of `runReport`: the query-report runner endpoint with
`report_name` and, only when filters are given, JSON-encoded `filters`
(an `undefined` params value is dropped by axios). -/
def runReportRequest (reportName : String) (filters : Option JObj) : HttpRequest :=
  ⟨"GET", "/api/method/frappe.desk.query_report.run",
    ("report_name", .str reportName) ::
      (match filters with
       | some f => [("filters", .str (jsonStringify (.obj f)))]
       | none => []),
    none⟩

/-- Operation `getDocument(doctype, name)`: issues its request, returns the `data`
field of the body; any failure (including a throwing property access on a
null body) is re-wrapped with the `Failed to get {doctype} {name}:`
prefix.  The second component lists the HTTP requests emitted. -/
def getDocument (B : Backend) (doctype name : String) :
    Except String Json × List HttpRequest :=
  let req := getDocumentRequest doctype name
  (match B req with
   | .ok body =>
       match jsGetE body "data" with
       | .ok v => .ok v
       | .error e =>
           .error ("Failed to get " ++ doctype ++ " " ++ name ++ ": " ++ msgOr e)
   | .error e =>
       .error ("Failed to get " ++ doctype ++ " " ++ name ++ ": " ++ msgOr e),
   [req])

/-- Operation `getDocList(doctype, filters?, fields?, limit?)`: issues its request,
returns the `data` field of the body; failures are re-wrapped with the
`Failed to get {doctype} list:` prefix. -/
def getDocList (B : Backend) (doctype : String) (filters : Option JObj)
    (fields : Option (List String)) (limit : Option Int) :
    Except String Json × List HttpRequest :=
  let req := getDocListRequest doctype filters fields limit
  (match B req with
   | .ok body =>
       match jsGetE body "data" with
       | .ok v => .ok v
       | .error e => .error ("Failed to get " ++ doctype ++ " list: " ++ msgOr e)
   | .error e => .error ("Failed to get " ++ doctype ++ " list: " ++ msgOr e),
   [req])

/-- Operation `createDocument(doctype, doc)`: posts `{data: doc}` and returns the
`data` field of the body; failures are re-wrapped. -/
def createDocument (B : Backend) (doctype : String) (doc : JObj) :
    Except String Json × List HttpRequest :=
  let req := createDocumentRequest doctype doc
  (match B req with
   | .ok body =>
       match jsGetE body "data" with
       | .ok v => .ok v
       | .error e => .error ("Failed to create " ++ doctype ++ ": " ++ msgOr e)
   | .error e => .error ("Failed to create " ++ doctype ++ ": " ++ msgOr e),
   [req])

/-- Operation `updateDocument(doctype, name, doc)`: puts `{data: doc}` and returns
the `data` field of the body; failures are re-wrapped. -/
def updateDocument (B : Backend) (doctype name : String) (doc : JObj) :
    Except String Json × List HttpRequest :=
  let req := updateDocumentRequest doctype name doc
  (match B req with
   | .ok body =>
       match jsGetE body "data" with
       | .ok v => .ok v
       | .error e =>
           .error ("Failed to update " ++ doctype ++ " " ++ name ++ ": " ++ msgOr e)
   | .error e =>
       .error ("Failed to update " ++ doctype ++ " " ++ name ++ ": " ++ msgOr e),
   [req])

/-- Operation `runReport(reportName, filters?)`: returns the `message` field of the
body; failures are re-wrapped with the `Failed to run report` prefix. -/
def runReport (B : Backend) (reportName : String) (filters : Option JObj) :
    Except String Json × List HttpRequest :=
  let req := runReportRequest reportName filters
  (match B req with
   | .ok body =>
       match jsGetE body "message" with
       | .ok v => .ok v
       | .error e => .error ("Failed to run report " ++ reportName ++ ": " ++ msgOr e)
   | .error e => .error ("Failed to run report " ++ reportName ++ ": " ++ msgOr e),
   [req])

/-- Primary DocType listing request of `getAllDocTypes`:
`GET /api/resource/DocType` with `fields=["name"]`, `limit_page_length=500`. -/
def docTypePrimaryRequest : HttpRequest :=
  ⟨"GET", "/api/resource/DocType",
    [("fields", .str (jsonStringify (.arr [.str "name"]))),
     ("limit_page_length", .num 500)], none⟩

/-- Alternate search-link request of `getAllDocTypes`:
`GET /api/method/frappe.desk.search.search_link` with
`doctype=DocType`, `txt=""`, `limit=500`. -/
def docTypeAltRequest : HttpRequest :=
  ⟨"GET", "/api/method/frappe.desk.search.search_link",
    [("doctype", .str "DocType"), ("txt", .str ""), ("limit", .num 500)], none⟩

/-- The hardcoded 14-name fallback list of `getAllDocTypes`. -/
def fallbackDocTypes : List Json :=
  [.str "Customer", .str "Supplier", .str "Item", .str "Sales Order",
   .str "Purchase Order", .str "Sales Invoice", .str "Purchase Invoice",
   .str "Employee", .str "Lead", .str "Opportunity", .str "Quotation",
   .str "Payment Entry", .str "Journal Entry", .str "Stock Entry"]

/-- Mapping `items.map(item => item[key])`: `none` models the `TypeError` thrown
when some element is `null`/`undefined`. -/
def mapFieldValues (key : String) : List Json → Option (List Json)
  | [] => some []
  | .null :: _ => none
  | .undefined :: _ => none
  | v :: rest =>
      match mapFieldValues key rest with
      | some l => some (jsGet v key :: l)
      | none => none

/-- Processing of a successful primary response in `getAllDocTypes`:
when `response.data && response.data.data` is truthy, map the `data` array
to each element's `name` (`none` models a thrown `TypeError` — a truthy
non-array `data`, or a null element — which falls through to the alternate
tier); otherwise return `[]`. -/
def docTypeTier1 (body : Json) : Option (List Json) :=
  if jsTruthy body && jsTruthy (jsGet body "data") then
    match jsGet body "data" with
    | .arr items => mapFieldValues "name" items
    | _ => none
  else some []

/-- Processing of a successful alternate response in `getAllDocTypes`:
as in the primary tier but over `results`, mapping each element's
`value`; a throw here falls through to the hardcoded list. -/
def docTypeTier2 (body : Json) : Option (List Json) :=
  if jsTruthy body && jsTruthy (jsGet body "results") then
    match jsGet body "results" with
    | .arr items => mapFieldValues "value" items
    | _ => none
  else some []

/-- The alternate-and-fallback tail of `getAllDocTypes`, reached when the
primary tier failed: try the search-link endpoint, degrade to the
hardcoded list.  It consults the backend only at `docTypeAltRequest`. -/
def altDocTypes (B : Backend) : List Json × List HttpRequest :=
  match B docTypeAltRequest with
  | .ok body =>
      match docTypeTier2 body with
      | some l => (l, [docTypePrimaryRequest, docTypeAltRequest])
      | none => (fallbackDocTypes, [docTypePrimaryRequest, docTypeAltRequest])
  | .error _ => (fallbackDocTypes, [docTypePrimaryRequest, docTypeAltRequest])

/-- Operation `getAllDocTypes()`: primary endpoint, then (only on a thrown failure)
the alternate endpoint, then (only on failure of both) the hardcoded
list.  Total: it never raises. -/
def getAllDocTypes (B : Backend) : List Json × List HttpRequest :=
  match B docTypePrimaryRequest with
  | .ok body =>
      match docTypeTier1 body with
      | some l => (l, [docTypePrimaryRequest])
      | none => altDocTypes B
  | .error _ => altDocTypes B

/-- A line terminator for the purposes of the JavaScript regex `.`
(which matches any character except these). -/
def lineTerm (c : Char) : Bool :=
  c == '\n' || c == '\r' || c.toNat == 0x2028 || c.toNat == 0x2029

/-- Split a character list at its first `'/'`. -/
def splitFirstSlash : List Char → Option (List Char × List Char)
  | [] => none
  | '/' :: rest => some ([], rest)
  | c :: rest => (fun p => (c :: p.1, p.2)) <$> splitFirstSlash rest

/-- The resource-URI regex `^erpnext:\/\/([^\/]+)\/(.+)$`: after the
`erpnext://` scheme, a non-empty first segment up to the first slash,
then a non-empty remainder that (because `.` excludes line terminators)
contains no line terminator. -/
def matchDocumentUri (uri : String) : Option (String × String) :=
  if uri.data.take 10 = "erpnext://".data then
    match splitFirstSlash (uri.data.drop 10) with
    | some (seg1, rest) =>
        if seg1 ≠ [] ∧ rest ≠ [] ∧ rest.all (fun c => !lineTerm c) then
          some (⟨seg1⟩, ⟨rest⟩)
        else none
    | none => none
  else none

/-- The numeric value of a hexadecimal digit. -/
def hexVal (c : Char) : Option Nat :=
  if '0' ≤ c ∧ c ≤ '9' then some (c.toNat - 48)
  else if 'a' ≤ c ∧ c ≤ 'f' then some (c.toNat - 87)
  else if 'A' ≤ c ∧ c ≤ 'F' then some (c.toNat - 55)
  else none

/-- UTF-8 encoding of one character, as byte values. -/
def charUtf8 (c : Char) : List Nat :=
  let n := c.toNat
  if n < 0x80 then [n]
  else if n < 0x800 then [0xC0 + n / 0x40, 0x80 + n % 0x40]
  else if n < 0x10000 then
    [0xE0 + n / 0x1000, 0x80 + n / 0x40 % 0x40, 0x80 + n % 0x40]
  else
    [0xF0 + n / 0x40000, 0x80 + n / 0x1000 % 0x40,
     0x80 + n / 0x40 % 0x40, 0x80 + n % 0x40]

/-- Percent-decoding stage of `decodeURIComponent`: each `%XX` becomes the
byte `XX` (`none` models the `URIError` on a malformed escape), every
other character contributes its UTF-8 bytes. -/
def pctDecodeBytes : List Char → Option (List Nat)
  | [] => some []
  | '%' :: h :: l :: rest => do
      let a ← hexVal h
      let b ← hexVal l
      let bs ← pctDecodeBytes rest
      pure ((16 * a + b) :: bs)
  | '%' :: _ => none
  | c :: rest => (charUtf8 c ++ ·) <$> pctDecodeBytes rest

/-- Is a byte a UTF-8 continuation byte? -/
def isContByte (b : Nat) : Bool := 0x80 ≤ b && b < 0xC0

/-- UTF-8 decoding stage of `decodeURIComponent`, rejecting (as the
`URIError "URI malformed"`) truncated sequences, bad continuation bytes,
overlong encodings, surrogates and out-of-range code points. -/
def utf8DecodeBytes : List Nat → Except String (List Char)
  | [] => .ok []
  | b :: rest =>
      if b < 0x80 then
        (Char.ofNat b :: ·) <$> utf8DecodeBytes rest
      else if b < 0xC0 then .error "URI malformed"
      else if b < 0xE0 then
        match rest with
        | b1 :: rest' =>
            let v := (b - 0xC0) * 0x40 + (b1 - 0x80)
            if isContByte b1 ∧ 0x80 ≤ v ∧ Nat.isValidChar v then
              (Char.ofNat v :: ·) <$> utf8DecodeBytes rest'
            else .error "URI malformed"
        | _ => .error "URI malformed"
      else if b < 0xF0 then
        match rest with
        | b1 :: b2 :: rest' =>
            let v := (b - 0xE0) * 0x1000 + (b1 - 0x80) * 0x40 + (b2 - 0x80)
            if isContByte b1 ∧ isContByte b2 ∧ 0x800 ≤ v ∧ Nat.isValidChar v then
              (Char.ofNat v :: ·) <$> utf8DecodeBytes rest'
            else .error "URI malformed"
        | _ => .error "URI malformed"
      else if b < 0xF8 then
        match rest with
        | b1 :: b2 :: b3 :: rest' =>
            let v := (b - 0xF0) * 0x40000 + (b1 - 0x80) * 0x1000 +
              (b2 - 0x80) * 0x40 + (b3 - 0x80)
            if isContByte b1 ∧ isContByte b2 ∧ isContByte b3 ∧
                0x10000 ≤ v ∧ Nat.isValidChar v then
              (Char.ofNat v :: ·) <$> utf8DecodeBytes rest'
            else .error "URI malformed"
        | _ => .error "URI malformed"
      else .error "URI malformed"

/-- Model of `decodeURIComponent`: percent-decode to bytes, then UTF-8 decode;
an error models the thrown `URIError`. -/
def decodeUriComponent (s : String) : Except String String :=
  match pctDecodeBytes s.data with
  | none => .error "URI malformed"
  | some bytes => (fun l => (⟨l⟩ : String)) <$> utf8DecodeBytes bytes

/-- The protocol error codes this program uses. -/
inductive McpErrorCode where
  | InvalidRequest
  | InvalidParams
  | InternalError
  | MethodNotFound
deriving DecidableEq, Repr

/-- Outcome of a read-resource request: a successful reply (whose single
content block carries the request URI and `JSON.stringify(result, null, 2)`
of the result value), a protocol-level `McpError`, or a non-protocol
exception propagating out of the handler (e.g. a `URIError` from
`decodeURIComponent`). -/
inductive ReadOutcome where
  | ok (uri : String) (result : Json)
  | mcpError (code : McpErrorCode) (msg : String)
  | thrown (msg : String)
deriving DecidableEq, Repr

/-- One text content block of a tool result: either literal text, the
pretty-printed `JSON.stringify(v, null, 2)` of a value, or a literal
label followed by such pretty-printed JSON. -/
inductive ContentText where
  | plain (s : String)
  | jsonOf (v : Json)
  | labeledJson (label : String) (v : Json)
deriving DecidableEq, Repr

/-- A tool result: content blocks plus the `isError` flag (absent in the
source means `false`). -/
structure ToolResult where
  content : List ContentText
  isError : Bool
deriving DecidableEq, Repr

/-- Outcome of a call-tool request: a tool result, or a thrown
protocol-level `McpError`. -/
inductive ToolOutcome where
  | result (r : ToolResult)
  | mcpError (code : McpErrorCode) (msg : String)
deriving DecidableEq, Repr

/-- The not-authenticated tool result shared by every tool case. -/
def notAuthResult : ToolResult :=
  ⟨[.plain "Not authenticated with ERPNext. Please configure API key authentication."],
    true⟩

/-- Lookup of `request.params.arguments?.key`: `none` models `undefined`, whether
the arguments object or just the key is absent. -/
def argGet (args : Option JObj) (k : String) : Option Json :=
  match args with
  | none => none
  | some l => l.lookup k

/-- The `String(...)` coercion applied to a possibly-absent argument:
an absent argument (`undefined`) coerces to the string `"undefined"`. -/
def strOfArg (v : Option Json) : String :=
  match v with
  | none => "undefined"
  | some j => jsString j

/-- The `as Record<string, any> | undefined` boundary: the runtime value
when it is an object, else absent. -/
def asObj (v : Option Json) : Option JObj :=
  match v with
  | some (.obj fs) => some fs
  | _ => none

/-- The `as string[] | undefined` boundary: the runtime value when it is
an array (of strings, per the declared input schema), else absent. -/
def asStrList (v : Option Json) : Option (List String) :=
  match v with
  | some (.arr xs) => some (xs.map jsString)
  | _ => none

/-- The `as number | undefined` boundary: the runtime value when it is a
number, else absent. -/
def asNum (v : Option Json) : Option Int :=
  match v with
  | some (.num n) => some n
  | _ => none

/-- The read-resource handler: authentication gate (protocol-level
`InvalidRequest` when unauthenticated), then URI dispatch — exactly
`erpnext://DocTypes` to `getAllDocTypes` wrapped as `{doctypes}`, a
document-pattern match to `getDocument` on the percent-decoded segments,
anything else (or a falsy fetched result) to the protocol-level
`Invalid ERPNext resource URI` error. -/
def readResource (B : Backend) (c : ERPNextClient) (uri : String) :
    ReadOutcome × List HttpRequest :=
  if c.isAuthenticated then
    if uri = "erpnext://DocTypes" then
      let (doctypes, tr) := getAllDocTypes B
      (.ok uri (.obj [("doctypes", .arr doctypes)]), tr)
    else
      match matchDocumentUri uri with
      | some (seg1, seg2) =>
          match decodeUriComponent seg1 with
          | .error e => (.thrown e, [])
          | .ok doctype =>
              match decodeUriComponent seg2 with
              | .error e => (.thrown e, [])
              | .ok name =>
                  match getDocument B doctype name with
                  | (.ok v, tr) =>
                      if jsTruthy v then (.ok uri v, tr)
                      else
                        (.mcpError .InvalidRequest
                          ("Invalid ERPNext resource URI: " ++ uri), tr)
                  | (.error e, tr) =>
                      (.mcpError .InvalidRequest
                        ("Failed to fetch " ++ doctype ++ " " ++ name ++ ": " ++
                          msgOr e), tr)
      | none =>
          (.mcpError .InvalidRequest ("Invalid ERPNext resource URI: " ++ uri), [])
  else
    (.mcpError .InvalidRequest
      "Not authenticated with ERPNext. Please configure API key authentication.", [])

/-- Model of `typeof v` for the values of this program. -/
def jsTypeof : Json → String
  | .undefined => "undefined"
  | .null => "object"
  | .bool _ => "boolean"
  | .num _ => "number"
  | .str _ => "string"
  | .arr _ => "object"
  | .obj _ => "object"

/-- Sampling `v?.toString()?.substring(0, 50) || null`: `null` for a nullish value
and for an empty (falsy) truncated string, else the first 50 characters
of the string form. -/
def sampleOf (v : Json) : Json :=
  match v with
  | .undefined => .null
  | .null => .null
  | v =>
      let s := (jsString v).take 50
      if s = "" then .null else .str s

/-- One field descriptor of `get_doctype_fields`:
`{fieldname, value: typeof, sample}` derived from the sample document. -/
def fieldDescriptor (doc : Json) (field : String) : Json :=
  .obj [("fieldname", .str field),
        ("value", .str (jsTypeof (jsGet doc field))),
        ("sample", sampleOf (jsGet doc field))]

/-- Model of `v.length` where defined: array element count or string length;
`none` models `undefined`. -/
def jsLength : Json → Option Int
  | .arr xs => some xs.length
  | .str s => some s.length
  | _ => none

/-- The emptiness test `!documents || documents.length === 0` of
`get_doctype_fields` (a strict comparison, so an `undefined` length is
not `0`). -/
def docsEmpty (v : Json) : Bool :=
  !jsTruthy v || jsLength v == some 0

/-- Indexing `documents[0]` on a truthy value (which cannot throw). -/
def jsIndex0 : Json → Json
  | .arr (x :: _) => x
  | .arr [] => .undefined
  | .str s =>
      match s.data with
      | c :: _ => .str ⟨[c]⟩
      | [] => .undefined
  | .obj fs => jsGet (.obj fs) "0"
  | _ => .undefined

/-- Model of `Object.keys(v)`: own enumerable keys of an object, index strings for
arrays and strings, `[]` for other primitives; throws (`error`) on
`null`/`undefined`. -/
def objKeysE : Json → Except String (List String)
  | .obj fs => .ok (fs.map Prod.fst)
  | .arr xs => .ok ((List.range xs.length).map toString)
  | .str s => .ok ((List.range s.length).map toString)
  | .null => .error "Cannot convert undefined or null to object"
  | .undefined => .error "Cannot convert undefined or null to object"
  | _ => .ok []

/-- The call-tool handler: dispatch on the tool name; each tool case
checks `isAuthenticated()` first (returning the `isError` tool result
without touching the backend), coerces its string arguments through
`String(...)`, validates them by truthiness (throwing the protocol-level
`InvalidParams` error), performs the backend call, and converts any
backend failure into an `isError` tool result.  Unknown names throw the
protocol-level `MethodNotFound` error. -/
def callTool (B : Backend) (c : ERPNextClient) (name : String)
    (args : Option JObj) : ToolOutcome × List HttpRequest :=
  if name = "get_documents" then
    if c.isAuthenticated then
      let doctype := strOfArg (argGet args "doctype")
      let fields := asStrList (argGet args "fields")
      let filters := asObj (argGet args "filters")
      let limit := asNum (argGet args "limit")
      if doctype = "" then (.mcpError .InvalidParams "Doctype is required", [])
      else
        match getDocList B doctype filters fields limit with
        | (.ok docs, tr) => (.result ⟨[.jsonOf docs], false⟩, tr)
        | (.error e, tr) =>
            (.result ⟨[.plain ("Failed to get " ++ doctype ++ " documents: " ++
              msgOr e)], true⟩, tr)
    else (.result notAuthResult, [])
  else if name = "create_document" then
    if c.isAuthenticated then
      let doctype := strOfArg (argGet args "doctype")
      let data := asObj (argGet args "data")
      if doctype = "" ∨ data = none then
        (.mcpError .InvalidParams "Doctype and data are required", [])
      else
        match createDocument B doctype (data.getD []) with
        | (.ok v, tr) =>
            (match jsGetE v "name" with
             | .ok nm =>
                 (.result ⟨[.labeledJson
                   ("Created " ++ doctype ++ ": " ++ jsString nm ++ "\n\n") v],
                   false⟩, tr)
             | .error e =>
                 (.result ⟨[.plain ("Failed to create " ++ doctype ++ ": " ++
                   msgOr e)], true⟩, tr))
        | (.error e, tr) =>
            (.result ⟨[.plain ("Failed to create " ++ doctype ++ ": " ++
              msgOr e)], true⟩, tr)
    else (.result notAuthResult, [])
  else if name = "update_document" then
    if c.isAuthenticated then
      let doctype := strOfArg (argGet args "doctype")
      let docName := strOfArg (argGet args "name")
      let data := asObj (argGet args "data")
      if doctype = "" ∨ docName = "" ∨ data = none then
        (.mcpError .InvalidParams "Doctype, name, and data are required", [])
      else
        match updateDocument B doctype docName (data.getD []) with
        | (.ok v, tr) =>
            (.result ⟨[.labeledJson
              ("Updated " ++ doctype ++ " " ++ docName ++ "\n\n") v], false⟩, tr)
        | (.error e, tr) =>
            (.result ⟨[.plain ("Failed to update " ++ doctype ++ " " ++ docName ++
              ": " ++ msgOr e)], true⟩, tr)
    else (.result notAuthResult, [])
  else if name = "run_report" then
    if c.isAuthenticated then
      let reportName := strOfArg (argGet args "report_name")
      let filters := asObj (argGet args "filters")
      if reportName = "" then
        (.mcpError .InvalidParams "Report name is required", [])
      else
        match runReport B reportName filters with
        | (.ok v, tr) => (.result ⟨[.jsonOf v], false⟩, tr)
        | (.error e, tr) =>
            (.result ⟨[.plain ("Failed to run report " ++ reportName ++ ": " ++
              msgOr e)], true⟩, tr)
    else (.result notAuthResult, [])
  else if name = "get_doctype_fields" then
    if c.isAuthenticated then
      let doctype := strOfArg (argGet args "doctype")
      if doctype = "" then (.mcpError .InvalidParams "Doctype is required", [])
      else
        match getDocList B doctype (some []) (some ["*"]) (some 1) with
        | (.ok docs, tr) =>
            if docsEmpty docs then
              (.result ⟨[.plain ("No documents found for " ++ doctype ++
                ". Cannot determine fields.")], true⟩, tr)
            else
              (match objKeysE (jsIndex0 docs) with
               | .ok keys =>
                   (.result ⟨[.jsonOf
                     (.arr (keys.map (fieldDescriptor (jsIndex0 docs))))], false⟩,
                     tr)
               | .error e =>
                   (.result ⟨[.plain ("Failed to get fields for " ++ doctype ++
                     ": " ++ msgOr e)], true⟩, tr))
        | (.error e, tr) =>
            (.result ⟨[.plain ("Failed to get fields for " ++ doctype ++ ": " ++
              msgOr e)], true⟩, tr)
    else (.result notAuthResult, [])
  else if name = "get_doctypes" then
    if c.isAuthenticated then
      let (doctypes, tr) := getAllDocTypes B
      (.result ⟨[.jsonOf (.arr doctypes)], false⟩, tr)
    else (.result notAuthResult, [])
  else (.mcpError .MethodNotFound ("Unknown tool: " ++ name), [])

/-- One invocation of a Backend Client operation, for stating that no
operation mutates the client's state. -/
inductive ClientOp where
  | getDocumentOp (doctype name : String)
  | getDocListOp (doctype : String) (filters : Option JObj)
      (fields : Option (List String)) (limit : Option Int)
  | createDocumentOp (doctype : String) (doc : JObj)
  | updateDocumentOp (doctype name : String) (doc : JObj)
  | runReportOp (reportName : String) (filters : Option JObj)
  | getAllDocTypesOp

/-- Run one client operation, threading the client state explicitly: no
method of the class assigns any field after construction, so each case
returns the state it received. -/
def runClientOp (c : ERPNextClient) (B : Backend) :
    ClientOp → ERPNextClient × (Except String Json × List HttpRequest)
  | .getDocumentOp d n => (c, getDocument B d n)
  | .getDocListOp d f fs l => (c, getDocList B d f fs l)
  | .createDocumentOp d doc => (c, createDocument B d doc)
  | .updateDocumentOp d n doc => (c, updateDocument B d n doc)
  | .runReportOp r f => (c, runReport B r f)
  | .getAllDocTypesOp =>
      let (l, tr) := getAllDocTypes B
      (c, (.ok (.arr l), tr))

/-- A backend on which every request fails. -/
def errBackend : Backend := fun _ => .error "boom"

/-- A backend on which every request resolves with a body that has no
`data` field. -/
def msgBackend : Backend := fun _ => .ok (.obj [("message", .str "ok")])

/-- A client constructed with credentials. -/
def authedClient : ERPNextClient := ⟨"http://x", some "token k:s", true⟩

/-- A client constructed without credentials. -/
def unauthClient : ERPNextClient := ⟨"http://x", none, false⟩

/-- C1: the claim states that a call-tool request omitting a required
argument raises a protocol-level invalid-params error before any backend
call.  The code instead coerces the absent argument with `String(...)`,
yielding the truthy string `"undefined"`, so the validation (clearly
intended to reject it, per the tool's `required` schema and the
`Doctype is required` message) passes and the backend is invoked with
doctype `"undefined"`: calling `get_documents` with empty arguments on an
authenticated client emits `GET /api/resource/undefined` and raises no
invalid-params error. -/
theorem c1_omitted_doctype_reaches_backend :
    callTool errBackend authedClient "get_documents" (some []) =
      (.result ⟨[.plain
        "Failed to get undefined documents: Failed to get undefined list: boom"],
        true⟩,
       [⟨"GET", "/api/resource/undefined", [], none⟩]) := by
  decide

/-- C2: while `isAuthenticated()` is false, each of the six tools returns
the `isError` tool result with the explanatory message and emits no
backend request, and a read-resource request instead raises the
protocol-level error. -/
theorem c2_unauthenticated_gate (B : Backend) (c : ERPNextClient)
    (name : String) (args : Option JObj) (uri : String)
    (hc : c.authenticated = false) :
    (name ∈ ["get_documents", "create_document", "update_document", "run_report",
        "get_doctype_fields", "get_doctypes"] →
      callTool B c name args = (.result notAuthResult, [])) ∧
    readResource B c uri =
      (.mcpError .InvalidRequest
        "Not authenticated with ERPNext. Please configure API key authentication.",
       []) := by
  have hc' : c.isAuthenticated = false := hc
  constructor
  · intro hn
    fin_cases hn <;> simp [callTool, hc']
  · simp [readResource, hc']

/-- C2 witness: the gate at a concrete unauthenticated client. -/
theorem c2_unauthenticated_gate_witness :
    callTool errBackend unauthClient "get_documents" none =
        (.result notAuthResult, []) ∧
    readResource errBackend unauthClient "erpnext://Item/ITEM-001" =
      (.mcpError .InvalidRequest
        "Not authenticated with ERPNext. Please configure API key authentication.",
       []) := by
  have h := c2_unauthenticated_gate errBackend unauthClient "get_documents" none
    "erpnext://Item/ITEM-001" rfl
  exact ⟨h.1 (by decide), h.2⟩

/-- C5: in the request emitted by `getDocList`, the `fields` parameter is
present iff the fields argument is given and non-empty, `filters` iff the
filters argument is given, and `limit_page_length` iff the limit is given
and truthy; a limit of `0` produces the identical request as no limit. -/
theorem c5_getDocList_query_params (doctype : String) (filters : Option JObj)
    (fields : Option (List String)) (limit : Option Int) :
    (((getDocListRequest doctype filters fields limit).params.lookup "fields").isSome
        ↔ ∃ fs, fields = some fs ∧ fs ≠ []) ∧
    (((getDocListRequest doctype filters fields limit).params.lookup "filters").isSome
        ↔ filters.isSome) ∧
    (((getDocListRequest doctype filters fields limit).params.lookup
        "limit_page_length").isSome
        ↔ ∃ n, limit = some n ∧ n ≠ 0) ∧
    getDocListRequest doctype filters fields (some 0) =
      getDocListRequest doctype filters fields none := by
  obtain _ | fs := fields <;> obtain _ | f := filters <;> obtain _ | n := limit <;>
      simp [getDocListRequest, List.lookup] <;>
    first
      | (rcases fs with _ | ⟨f0, fs'⟩ <;> rcases eq_or_ne n 0 with hn | hn <;>
          simp [hn, List.lookup])
      | (rcases fs with _ | ⟨f0, fs'⟩ <;> simp [List.lookup])
      | (rcases eq_or_ne n 0 with hn | hn <;> simp [hn, List.lookup])

/-- C7 counterexample: the claim says `isAuthenticated()` is true iff both
`ERPNEXT_API_KEY` and `ERPNEXT_API_SECRET` were present at construction.
With the key present but empty (a falsy string), both variables are
present yet the constructor's `if (apiKey && apiSecret)` leaves the client
unauthenticated. -/
theorem c7_present_but_empty_key_counterexample :
    clientInit ⟨some "http://x", some "", some "secret"⟩ =
        .ok ⟨"http://x", none, false⟩ ∧
    (Option.some "").isSome ∧ (Option.some "secret").isSome ∧
    ERPNextClient.isAuthenticated ⟨"http://x", none, false⟩ = false :=
  ⟨rfl, rfl, rfl, rfl⟩

/-- C7 amended: `isAuthenticated()` is true iff both credentials were
present *and non-empty* at construction, and no client operation mutates
the flag. -/
theorem c7_authenticated_flag_invariant (env : Env) (c : ERPNextClient)
    (h : clientInit env = .ok c) :
    (c.isAuthenticated = true ↔
      ∃ k s, env.apiKey = some k ∧ k ≠ "" ∧ env.apiSecret = some s ∧ s ≠ "") ∧
    ∀ (B : Backend) (op : ClientOp),
      ((runClientOp c B op).1).isAuthenticated = c.isAuthenticated := by
  constructor
  · obtain ⟨u, k?, s?⟩ := env
    by_cases hu : (u.getD "") = ""
    · simp [clientInit, hu] at h
    · obtain _ | k := k? <;> obtain _ | s := s? <;>
        simp only [clientInit, hu, if_false, Except.ok.injEq] at h
      · subst h; simp [ERPNextClient.isAuthenticated]
      · subst h; simp [ERPNextClient.isAuthenticated]
      · subst h; simp [ERPNextClient.isAuthenticated]
      · by_cases hke : k = "" <;> by_cases hse : s = "" <;>
          simp only [hke, hse, ne_eq, not_true_eq_false, not_false_eq_true,
            false_and, and_false, and_true, true_and, if_false, if_true,
            Except.ok.injEq] at h <;> subst h <;>
          simp only [ERPNextClient.isAuthenticated]
        · simp only [Bool.false_eq_true, false_iff]
          rintro ⟨k', s', hk', hke', _, _⟩
          cases hk'; exact hke' hke
        · simp only [Bool.false_eq_true, false_iff]
          rintro ⟨k', s', hk', hke', _, _⟩
          cases hk'; exact hke' hke
        · simp only [Bool.false_eq_true, false_iff]
          rintro ⟨k', s', _, _, hs', hse'⟩
          cases hs'; exact hse' hse
        · simp only [true_iff]
          exact ⟨k, s, rfl, hke, rfl, hse⟩
  · intro B op
    cases op <;> simp [runClientOp]

/-- C7 witness: at a concrete environment with non-empty credentials the
flag is true, and a concrete operation leaves it unchanged. -/
theorem c7_authenticated_flag_invariant_witness :
    ERPNextClient.isAuthenticated ⟨"http://x", some "token k:s", true⟩ = true ∧
    ((runClientOp ⟨"http://x", some "token k:s", true⟩ errBackend
        .getAllDocTypesOp).1).isAuthenticated =
      ERPNextClient.isAuthenticated ⟨"http://x", some "token k:s", true⟩ := by
  have h := c7_authenticated_flag_invariant ⟨some "http://x", some "k", some "s"⟩
    ⟨"http://x", some "token k:s", true⟩ rfl
  exact ⟨h.1.mpr ⟨"k", "s", rfl, by decide, rfl, by decide⟩,
    h.2 errBackend .getAllDocTypesOp⟩

/-- C9: when the primary DocType request resolves but the body has no
`data` field, `getAllDocTypes` returns the empty list and never attempts
the alternate endpoint — fallback is triggered only by a thrown error. -/
theorem c9_missing_data_returns_empty (B : Backend) (body : Json)
    (h1 : B docTypePrimaryRequest = .ok body)
    (h2 : jsGet body "data" = .undefined) :
    getAllDocTypes B = ([], [docTypePrimaryRequest]) := by
  have ht : docTypeTier1 body = some [] := by
    unfold docTypeTier1
    rw [h2]
    simp [jsTruthy]
  unfold getAllDocTypes
  rw [h1]
  simp [ht]

/-- C9 witness: a backend whose primary response lacks `data`. -/
theorem c9_missing_data_returns_empty_witness :
    getAllDocTypes msgBackend = ([], [docTypePrimaryRequest]) :=
  c9_missing_data_returns_empty msgBackend (.obj [("message", .str "ok")])
    rfl (by decide)

/-- C10: on an authenticated client, reading `erpnext://DocTypes` always
succeeds with a `{doctypes: [...]}` payload: `getAllDocTypes` is total
(it degrades internally), so the handler's wrapping error branch is
unreachable. -/
theorem c10_doctypes_read_always_succeeds (B : Backend) (c : ERPNextClient)
    (hc : c.authenticated = true) :
    readResource B c "erpnext://DocTypes" =
      (.ok "erpnext://DocTypes" (.obj [("doctypes", .arr (getAllDocTypes B).1)]),
       (getAllDocTypes B).2) := by
  have hc' : c.isAuthenticated = true := hc
  rcases hgd : getAllDocTypes B with ⟨l, tr⟩
  simp [readResource, hc', hgd]

/-- C10 witness: the DocTypes read on a failing backend still succeeds. -/
theorem c10_doctypes_read_always_succeeds_witness :
    readResource errBackend authedClient "erpnext://DocTypes" =
      (.ok "erpnext://DocTypes"
        (.obj [("doctypes", .arr (getAllDocTypes errBackend).1)]),
       (getAllDocTypes errBackend).2) :=
  c10_doctypes_read_always_succeeds errBackend authedClient rfl

/-- If every array element has a string field at `key`, a successful
`map(item => item[key])` yields only strings. -/
theorem mapFieldValues_strings (key : String) :
    ∀ (items l : List Json),
      (∀ item ∈ items, ∃ s, jsGet item key = .str s) →
      mapFieldValues key items = some l →
      ∀ v ∈ l, ∃ s, v = .str s := by
  intro items
  induction items with
  | nil =>
    intro l h hm
    simp [mapFieldValues] at hm
    subst hm; simp
  | cons x rest ih =>
    intro l h hm
    cases x <;> simp only [mapFieldValues, reduceCtorEq] at hm
    all_goals
      cases hrec : mapFieldValues key rest with
      | none => rw [hrec] at hm; cases hm
      | some a =>
        rw [hrec] at hm
        simp only [Option.some.injEq] at hm
        subst hm
        intro v hv
        rcases List.mem_cons.mp hv with rfl | hv'
        · obtain ⟨s, hs⟩ := h _ (List.mem_cons_self _ _)
          exact ⟨s, hs⟩
        · exact ih a (fun it hit => h it (List.mem_cons_of_mem _ hit)) hrec v hv'

/-- Strings from a successful primary tier, given well-typed `name`
fields. -/
theorem docTypeTier1_strings (body : Json) (l : List Json)
    (h : ∀ items, jsGet body "data" = .arr items →
      ∀ item ∈ items, ∃ s, jsGet item "name" = .str s)
    (hm : docTypeTier1 body = some l) : ∀ v ∈ l, ∃ s, v = .str s := by
  unfold docTypeTier1 at hm
  split at hm
  · cases hd : jsGet body "data" <;> rw [hd] at hm <;>
      simp only [reduceCtorEq] at hm
    case arr items =>
      have hstr := h items hd
      intro v hv
      obtain ⟨s, hs⟩ := mapFieldValues_strings "name" items l hstr hm v hv
      exact ⟨s, hs⟩
  · cases hm; simp

/-- Strings from a successful alternate tier, given well-typed `value`
fields. -/
theorem docTypeTier2_strings (body : Json) (l : List Json)
    (h : ∀ items, jsGet body "results" = .arr items →
      ∀ item ∈ items, ∃ s, jsGet item "value" = .str s)
    (hm : docTypeTier2 body = some l) : ∀ v ∈ l, ∃ s, v = .str s := by
  unfold docTypeTier2 at hm
  split at hm
  · cases hd : jsGet body "results" <;> rw [hd] at hm <;>
      simp only [reduceCtorEq] at hm
    case arr items =>
      have hstr := h items hd
      intro v hv
      obtain ⟨s, hs⟩ := mapFieldValues_strings "value" items l hstr hm v hv
      exact ⟨s, hs⟩
  · cases hm; simp

/-- Every entry of the hardcoded fallback list is a string. -/
theorem fallbackDocTypes_strings : ∀ v ∈ fallbackDocTypes, ∃ s, v = .str s := by
  intro v hv
  fin_cases hv <;> exact ⟨_, rfl⟩

/-- The alternate-and-fallback tail always emits both requests as its
trace. -/
theorem altDocTypes_trace (B : Backend) :
    (altDocTypes B).2 = [docTypePrimaryRequest, docTypeAltRequest] := by
  rcases hA : B docTypeAltRequest with e | body
  · simp [altDocTypes, hA]
  · rcases ht : docTypeTier2 body with _ | l <;> simp [altDocTypes, hA, ht]

/-- Strings from the alternate-and-fallback tail, given well-typed
`value` fields in the alternate response. -/
theorem altDocTypes_strings (B : Backend)
    (h2 : ∀ body items, B docTypeAltRequest = .ok body →
      jsGet body "results" = .arr items →
      ∀ item ∈ items, ∃ s, jsGet item "value" = .str s) :
    ∀ v ∈ (altDocTypes B).1, ∃ s, v = .str s := by
  rcases hA : B docTypeAltRequest with e | body
  · intro v hv
    simp only [altDocTypes, hA] at hv
    exact fallbackDocTypes_strings v hv
  · rcases ht : docTypeTier2 body with _ | l
    · intro v hv
      simp only [altDocTypes, hA, ht] at hv
      exact fallbackDocTypes_strings v hv
    · intro v hv
      simp only [altDocTypes, hA, ht] at hv
      exact docTypeTier2_strings body l (fun items hd => h2 body items hA hd) ht v hv

/-- C3: `getAllDocTypes` never raises (it is a total function into a
list of values): it emits the primary request, emits the alternate
request only when the primary tier failed with a throw (and then its
outcome depends only on the alternate endpoint, uncontaminated by the
first failure), returns exactly the fixed 14-name list only when both
tiers failed, and — whenever the backend's `name`/`value` fields are
strings, as typed — returns a list of strings in all cases. -/
theorem c3_getAllDocTypes_fallback_chain (B : Backend) :
    ((getAllDocTypes B).2 = [docTypePrimaryRequest] ∨
      (getAllDocTypes B).2 = [docTypePrimaryRequest, docTypeAltRequest]) ∧
    (∀ body l, B docTypePrimaryRequest = .ok body → docTypeTier1 body = some l →
      getAllDocTypes B = (l, [docTypePrimaryRequest])) ∧
    (∀ e, B docTypePrimaryRequest = .error e → getAllDocTypes B = altDocTypes B) ∧
    (∀ body, B docTypePrimaryRequest = .ok body → docTypeTier1 body = none →
      getAllDocTypes B = altDocTypes B) ∧
    (∀ B' : Backend, B docTypeAltRequest = B' docTypeAltRequest →
      altDocTypes B = altDocTypes B') ∧
    (∀ e e', B docTypePrimaryRequest = .error e → B docTypeAltRequest = .error e' →
      getAllDocTypes B =
        (fallbackDocTypes, [docTypePrimaryRequest, docTypeAltRequest])) ∧
    fallbackDocTypes =
      [Json.str "Customer", Json.str "Supplier", Json.str "Item",
       Json.str "Sales Order", Json.str "Purchase Order",
       Json.str "Sales Invoice", Json.str "Purchase Invoice",
       Json.str "Employee", Json.str "Lead", Json.str "Opportunity",
       Json.str "Quotation", Json.str "Payment Entry",
       Json.str "Journal Entry", Json.str "Stock Entry"] ∧
    ((∀ body items, B docTypePrimaryRequest = .ok body →
        jsGet body "data" = .arr items →
        ∀ item ∈ items, ∃ s, jsGet item "name" = .str s) →
      (∀ body items, B docTypeAltRequest = .ok body →
        jsGet body "results" = .arr items →
        ∀ item ∈ items, ∃ s, jsGet item "value" = .str s) →
      ∀ v ∈ (getAllDocTypes B).1, ∃ s, v = .str s) := by
  refine ⟨?_, ?_, ?_, ?_, ?_, ?_, rfl, ?_⟩
  · rcases hB : B docTypePrimaryRequest with e | body
    · right
      simp only [getAllDocTypes, hB]
      exact altDocTypes_trace B
    · rcases ht : docTypeTier1 body with _ | l
      · right
        simp only [getAllDocTypes, hB, ht]
        exact altDocTypes_trace B
      · left
        simp only [getAllDocTypes, hB, ht]
  · intro body l h1 ht
    unfold getAllDocTypes
    rw [h1]
    simp [ht]
  · intro e h1
    unfold getAllDocTypes
    rw [h1]
  · intro body h1 ht
    unfold getAllDocTypes
    rw [h1]
    simp [ht]
  · intro B' hBB
    unfold altDocTypes
    rw [hBB]
  · intro e e' h1 h2
    unfold getAllDocTypes altDocTypes
    rw [h1, h2]
  · intro h1 h2
    rcases hB : B docTypePrimaryRequest with e | body
    · intro v hv
      simp only [getAllDocTypes, hB] at hv
      exact altDocTypes_strings B h2 v hv
    · rcases ht : docTypeTier1 body with _ | l
      · intro v hv
        simp only [getAllDocTypes, hB, ht] at hv
        exact altDocTypes_strings B h2 v hv
      · intro v hv
        simp only [getAllDocTypes, hB, ht] at hv
        exact docTypeTier1_strings body l (fun items hd => h1 body items hB hd) ht v hv

/-- C3 witness: a backend whose primary response is well-formed. -/
theorem c3_getAllDocTypes_fallback_chain_witness :
    getAllDocTypes (fun _ => .ok
        (.obj [("data", .arr [.obj [("name", .str "Customer")]])])) =
      ([.str "Customer"], [docTypePrimaryRequest]) :=
  (c3_getAllDocTypes_fallback_chain
      (fun _ => .ok (.obj [("data", .arr [.obj [("name", .str "Customer")]])]))).2.1
    (.obj [("data", .arr [.obj [("name", .str "Customer")]])])
    [.str "Customer"] rfl (by decide)

/-- A backend whose every response carries a document under `data`. -/
def docBackend : Backend :=
  fun _ => .ok (.obj [("data", .obj [("item_code", .str "X")])])

/-- A backend whose every response carries an empty `data` array. -/
def emptyListBackend : Backend := fun _ => .ok (.obj [("data", .arr [])])

/-- C4: on an authenticated client, the read-resource handler dispatches
the URI exactly equal to `erpnext://DocTypes` to `getAllDocTypes`
(wrapped as `{doctypes: [...]}`), a URI matching the document pattern to
`getDocument` on the two percent-decoded segments (its trace is exactly
the `getDocument` trace, a truthy result is returned, and a falsy result
yields the `Invalid ERPNext resource URI` protocol error), and any other
URI to the `Invalid ERPNext resource URI` protocol error with no backend
call. -/
theorem c4_read_resource_dispatch (B : Backend) (c : ERPNextClient)
    (uri : String) (hc : c.authenticated = true) :
    (uri = "erpnext://DocTypes" →
      readResource B c uri =
        (.ok uri (.obj [("doctypes", .arr (getAllDocTypes B).1)]),
         (getAllDocTypes B).2)) ∧
    (∀ s1 s2 d n, matchDocumentUri uri = some (s1, s2) →
      decodeUriComponent s1 = .ok d → decodeUriComponent s2 = .ok n →
      ((readResource B c uri).2 = (getDocument B d n).2 ∧
       (∀ v, (getDocument B d n).1 = .ok v → jsTruthy v = true →
         (readResource B c uri).1 = .ok uri v) ∧
       (∀ v, (getDocument B d n).1 = .ok v → jsTruthy v = false →
         (readResource B c uri).1 =
           .mcpError .InvalidRequest ("Invalid ERPNext resource URI: " ++ uri)))) ∧
    (uri ≠ "erpnext://DocTypes" → matchDocumentUri uri = none →
      readResource B c uri =
        (.mcpError .InvalidRequest ("Invalid ERPNext resource URI: " ++ uri),
         [])) := by
  have hc' : c.isAuthenticated = true := hc
  refine ⟨?_, ?_, ?_⟩
  · intro h
    subst h
    rcases hgd : getAllDocTypes B with ⟨l, tr⟩
    simp [readResource, hc', hgd]
  · intro s1 s2 d n hm hd1 hd2
    have hne : uri ≠ "erpnext://DocTypes" := by
      intro h
      subst h
      rw [show matchDocumentUri "erpnext://DocTypes" = none from by decide] at hm
      cases hm
    refine ⟨?_, ?_, ?_⟩
    · rcases hg : getDocument B d n with ⟨r, tr⟩
      rcases r with e | v
      · simp [readResource, hc', hne, hm, hd1, hd2, hg]
      · by_cases htv : jsTruthy v <;>
          simp [readResource, hc', hne, hm, hd1, hd2, hg, htv]
    · intro v hv htv
      rcases hg : getDocument B d n with ⟨r, tr⟩
      rw [hg] at hv
      simp only at hv
      subst hv
      simp [readResource, hc', hne, hm, hd1, hd2, hg, htv]
    · intro v hv htv
      rcases hg : getDocument B d n with ⟨r, tr⟩
      rw [hg] at hv
      simp only at hv
      subst hv
      simp [readResource, hc', hne, hm, hd1, hd2, hg, htv]
  · intro hne hm
    simp [readResource, hc', hne, hm]

/-- C4 witness: a document URI dispatches to `getDocument` and returns
its truthy result. -/
theorem c4_read_resource_dispatch_witness :
    (readResource docBackend authedClient "erpnext://Item/ITEM-001").1 =
        .ok "erpnext://Item/ITEM-001" (.obj [("item_code", .str "X")]) ∧
    (readResource docBackend authedClient "erpnext://Item/ITEM-001").2 =
      (getDocument docBackend "Item" "ITEM-001").2 := by
  have h := (c4_read_resource_dispatch docBackend authedClient
      "erpnext://Item/ITEM-001" rfl).2.1 "Item" "ITEM-001" "Item" "ITEM-001"
    (by decide) rfl rfl
  exact ⟨h.2.1 (.obj [("item_code", .str "X")]) rfl rfl, h.1⟩

/-- C8: the authenticated `get_doctype_fields` handler with a doctype
argument calls `getDocList(doctype, {}, ["*"], 1)` (its trace is exactly
that one request); an empty result yields an `isError` tool result whose
text extends `No documents found for {doctype}` — not a protocol-level
exception — and a non-empty result yields, for each key of the first
record, the `{fieldname, value, sample}` descriptor. -/
theorem c8_get_doctype_fields_behavior (B : Backend) (c : ERPNextClient)
    (args : Option JObj) (doctype : String)
    (hc : c.authenticated = true)
    (hd : strOfArg (argGet args "doctype") = doctype)
    (hne : doctype ≠ "") :
    ((callTool B c "get_doctype_fields" args).2 =
        (getDocList B doctype (some []) (some ["*"]) (some 1)).2 ∧
      (getDocList B doctype (some []) (some ["*"]) (some 1)).2 =
        [getDocListRequest doctype (some []) (some ["*"]) (some 1)]) ∧
    ((getDocList B doctype (some []) (some ["*"]) (some 1)).1 = .ok (.arr []) →
      ((callTool B c "get_doctype_fields" args).1 =
          .result ⟨[.plain ("No documents found for " ++ doctype ++
            ". Cannot determine fields.")], true⟩ ∧
        ∃ rest, "No documents found for " ++ doctype ++
            ". Cannot determine fields." =
          "No documents found for " ++ doctype ++ rest)) ∧
    (∀ fs tail, (getDocList B doctype (some []) (some ["*"]) (some 1)).1 =
        .ok (.arr (.obj fs :: tail)) →
      (callTool B c "get_doctype_fields" args).1 =
        .result ⟨[.jsonOf (.arr ((fs.map Prod.fst).map
          (fieldDescriptor (.obj fs))))], false⟩) := by
  have hc' : c.isAuthenticated = true := hc
  subst hd
  refine ⟨⟨?_, rfl⟩, ?_, ?_⟩
  · rcases hg : getDocList B (strOfArg (argGet args "doctype"))
        (some []) (some ["*"]) (some 1) with ⟨r, tr⟩
    rcases r with e | docs
    · simp [callTool, hc', hne, hg]
    · by_cases he : docsEmpty docs
      · simp [callTool, hc', hne, hg, he]
      · rcases hk : objKeysE (jsIndex0 docs) with e | keys <;>
          simp [callTool, hc', hne, hg, he, hk]
  · intro hemp
    rcases hg : getDocList B (strOfArg (argGet args "doctype"))
        (some []) (some ["*"]) (some 1) with ⟨r, tr⟩
    rw [hg] at hemp
    simp only at hemp
    subst hemp
    refine ⟨?_, ⟨". Cannot determine fields.", rfl⟩⟩
    simp [callTool, hc', hne, hg, docsEmpty, jsTruthy, jsLength]
  · intro fs tail hok
    rcases hg : getDocList B (strOfArg (argGet args "doctype"))
        (some []) (some ["*"]) (some 1) with ⟨r, tr⟩
    rw [hg] at hok
    simp only at hok
    subst hok
    have hne' : docsEmpty (.arr (.obj fs :: tail)) = false := by
      simp [docsEmpty, jsTruthy, jsLength]
      omega
    simp [callTool, hc', hne, hg, hne', jsIndex0, objKeysE]

/-- C8 witness: the empty-result branch at a concrete backend. -/
theorem c8_get_doctype_fields_behavior_witness :
    (callTool emptyListBackend authedClient "get_doctype_fields"
        (some [("doctype", .str "Customer")])).1 =
      .result ⟨[.plain ("No documents found for " ++ "Customer" ++
        ". Cannot determine fields.")], true⟩ :=
  ((c8_get_doctype_fields_behavior emptyListBackend authedClient
      (some [("doctype", .str "Customer")]) "Customer" rfl
      (by simp [strOfArg, argGet, jsString]) (by decide)).2.1 rfl).1

/-- Two adjacent slashes occur somewhere in the character list. -/
def hasDoubleSlash : List Char → Bool
  | [] => false
  | [_] => false
  | a :: b :: rest => (a == '/' && b == '/') || hasDoubleSlash (b :: rest)

/-- Appending a clean tail whose head cannot complete a doubled slash
changes nothing about doubled slashes. -/
theorem hasDoubleSlash_append (xs ys : List Char)
    (hy : hasDoubleSlash ys = false) :
    (xs.getLast? = some '/' → ys.head? ≠ some '/') →
    hasDoubleSlash (xs ++ ys) = hasDoubleSlash xs := by
  induction xs with
  | nil => intro _; simp [hasDoubleSlash, hy]
  | cons a tail ih =>
    intro hb
    cases tail with
    | nil =>
      cases ys with
      | nil => simp [hasDoubleSlash]
      | cons y ys' =>
        have h1 : (a == '/' && y == '/') = false := by
          by_cases ha : a = '/'
          · have hyy : y ≠ '/' := by
              have := hb (by simp [ha])
              simpa using this
            simp [hyy]
          · simp [ha]
        simp [hasDoubleSlash, h1, hy]
    | cons b tail' =>
      have hbt : (b :: tail').getLast? = some '/' → ys.head? ≠ some '/' := by
        intro hl
        exact hb (by rw [List.getLast?_cons_cons]; exact hl)
      have ih' := ih hbt
      calc hasDoubleSlash ((a :: b :: tail') ++ ys)
          = ((a == '/' && b == '/') || hasDoubleSlash ((b :: tail') ++ ys)) := rfl
        _ = ((a == '/' && b == '/') || hasDoubleSlash (b :: tail')) := by rw [ih']
        _ = hasDoubleSlash (a :: b :: tail') := rfl

/-- A slash-free character list has no doubled slash. -/
theorem hasDoubleSlash_eq_false_of_no_slash (xs : List Char) (h : '/' ∉ xs) :
    hasDoubleSlash xs = false := by
  induction xs with
  | nil => rfl
  | cons a tail ih =>
    cases tail with
    | nil => rfl
    | cons b tail' =>
      have ha : a ≠ '/' := by
        intro he
        rw [he] at h
        exact h (List.mem_cons_self _ _)
      have h' : '/' ∉ b :: tail' := fun hm => h (List.mem_cons_of_mem _ hm)
      simp [hasDoubleSlash, ha, ih h']

/-- A slash-free character list does not start with a slash. -/
theorem head?_ne_slash (xs : List Char) (h : '/' ∉ xs) :
    xs.head? ≠ some '/' := by
  cases xs with
  | nil => simp
  | cons c cs =>
    simp only [List.head?_cons, ne_eq, Option.some.injEq]
    intro he
    rw [he] at h
    exact h (List.mem_cons_self _ _)

/-- A slash-free character list does not end with a slash. -/
theorem getLast?_ne_slash (xs : List Char) (h : '/' ∉ xs) :
    xs.getLast? ≠ some '/' := by
  induction xs with
  | nil => simp
  | cons a tail ih =>
    cases tail with
    | nil =>
      intro he
      have ha : a = '/' := by simpa using he
      rw [ha] at h
      exact h (List.mem_cons_self _ _)
    | cons b tail' =>
      rw [List.getLast?_cons_cons]
      exact ih (fun hm => h (List.mem_cons_of_mem _ hm))

/-- Path `/api/resource/{doctype}` has no doubled slash for a non-empty,
slash-free doctype. -/
theorem resourceListPath_clean (d : List Char) (hd1 : '/' ∉ d) :
    hasDoubleSlash ("/api/resource/".data ++ d) = false := by
  rw [hasDoubleSlash_append _ _ (hasDoubleSlash_eq_false_of_no_slash d hd1)
    (fun _ => head?_ne_slash d hd1)]
  decide

/-- Path `/api/resource/{doctype}/{name}` has no doubled slash for non-empty,
slash-free segments. -/
theorem resourceDocPath_clean (d n : List Char) (hd0 : d ≠ [])
    (hd1 : '/' ∉ d) (hn1 : '/' ∉ n) :
    hasDoubleSlash ((("/api/resource/".data ++ d) ++ ['/']) ++ n) = false := by
  have h2 : hasDoubleSlash (("/api/resource/".data ++ d) ++ ['/']) = false := by
    rw [hasDoubleSlash_append _ ['/'] (by decide)
      (fun hl => absurd hl (by
        rw [List.getLast?_append_of_ne_nil _ hd0]
        exact getLast?_ne_slash d hd1))]
    exact resourceListPath_clean d hd1
  rw [hasDoubleSlash_append _ _ (hasDoubleSlash_eq_false_of_no_slash n hn1)
    (fun _ => head?_ne_slash n hn1)]
  exact h2

/-- C6: for a base URL ending in a (single) trailing slash, the stored
URL is the base URL with exactly that one slash removed, every request
path the client produces (for non-empty, slash-free doctype and name
segments) contains no doubled slash, and gluing such a path onto the
stored URL introduces no doubled slash at the junction. -/
theorem c6_trailing_slash_stripped (b d n r : String) (doc : JObj)
    (filters : Option JObj) (fields : Option (List String)) (limit : Option Int)
    (hb : b.data.getLast? = some '/')
    (hb1 : (stripTrailingSlash b).data.getLast? ≠ some '/')
    (hd0 : d.data ≠ []) (hd1 : '/' ∉ d.data) (hn1 : '/' ∉ n.data) :
    (stripTrailingSlash b).data ++ ['/'] = b.data ∧
    hasDoubleSlash (getDocumentRequest d n).url.data = false ∧
    hasDoubleSlash (getDocListRequest d filters fields limit).url.data = false ∧
    hasDoubleSlash (createDocumentRequest d doc).url.data = false ∧
    hasDoubleSlash (updateDocumentRequest d n doc).url.data = false ∧
    hasDoubleSlash (runReportRequest r filters).url.data = false ∧
    hasDoubleSlash docTypePrimaryRequest.url.data = false ∧
    hasDoubleSlash docTypeAltRequest.url.data = false ∧
    hasDoubleSlash ((stripTrailingSlash b).data ++
        (getDocumentRequest d n).url.data) =
      hasDoubleSlash (stripTrailingSlash b).data ∧
    hasDoubleSlash ((stripTrailingSlash b).data ++
        (getDocListRequest d filters fields limit).url.data) =
      hasDoubleSlash (stripTrailingSlash b).data := by
  have hdocdata : (getDocumentRequest d n).url.data =
      (("/api/resource/".data ++ d.data) ++ ['/']) ++ n.data := by
    show ((("/api/resource/" ++ d) ++ "/") ++ n).data = _
    rw [String.data_append, String.data_append, String.data_append]
  have hlistdata : (getDocListRequest d filters fields limit).url.data =
      "/api/resource/".data ++ d.data := by
    show ("/api/resource/" ++ d).data = _
    rw [String.data_append]
  have hupdata : (updateDocumentRequest d n doc).url.data =
      (("/api/resource/".data ++ d.data) ++ ['/']) ++ n.data := by
    show ((("/api/resource/" ++ d) ++ "/") ++ n).data = _
    rw [String.data_append, String.data_append, String.data_append]
  have hcreatedata : (createDocumentRequest d doc).url.data =
      "/api/resource/".data ++ d.data := by
    show ("/api/resource/" ++ d).data = _
    rw [String.data_append]
  have hdoc : hasDoubleSlash (getDocumentRequest d n).url.data = false := by
    rw [hdocdata]
    exact resourceDocPath_clean d.data n.data hd0 hd1 hn1
  have hlist : hasDoubleSlash
      (getDocListRequest d filters fields limit).url.data = false := by
    rw [hlistdata]
    exact resourceListPath_clean d.data hd1
  refine ⟨?_, hdoc, hlist, ?_, ?_,
    (show hasDoubleSlash
        ("/api/method/frappe.desk.query_report.run" : String).data = false
      by decide),
    by decide, by decide, ?_, ?_⟩
  · have hstrip : stripTrailingSlash b = ⟨b.data.dropLast⟩ := by
      unfold stripTrailingSlash stripSlashL
      rw [if_pos hb]
    rw [hstrip]
    exact List.dropLast_append_getLast? _ hb
  · rw [hcreatedata]
    exact resourceListPath_clean d.data hd1
  · rw [hupdata]
    exact resourceDocPath_clean d.data n.data hd0 hd1 hn1
  · exact hasDoubleSlash_append _ _ hdoc (fun hl => absurd hl hb1)
  · exact hasDoubleSlash_append _ _ hlist (fun hl => absurd hl hb1)

/-- C6 witness: a concrete base URL with a trailing slash and concrete
segments. -/
theorem c6_trailing_slash_stripped_witness :
    (stripTrailingSlash "https://erp.example.com/").data ++ ['/'] =
        "https://erp.example.com/".data ∧
    hasDoubleSlash ((stripTrailingSlash "https://erp.example.com/").data ++
        (getDocumentRequest "Customer" "CUST-0001").url.data) =
      hasDoubleSlash (stripTrailingSlash "https://erp.example.com/").data := by
  have h := c6_trailing_slash_stripped "https://erp.example.com/" "Customer"
    "CUST-0001" "Sales Register" [] none none none (by decide) (by decide)
    (by decide) (by decide) (by decide)
  exact ⟨h.1, h.2.2.2.2.2.2.2.2.1⟩

/-- C5 witness: a limit of zero yields the identical request as no
limit at a concrete doctype. -/
theorem c5_getDocList_query_params_witness :
    getDocListRequest "Customer" none none (some 0) =
      getDocListRequest "Customer" none none none :=
  (c5_getDocList_query_params "Customer" none none (some 0)).2.2.2
